import Mathlib

/-!
Verification of the RCBACKEND expense lifecycle and financial reporting.

The definitions below are a shallow embedding of the JavaScript source:

* `Expense` mirrors the mongoose `expenseSchema` (models/Expense.model.js).
* `approveExpense`, `rejectExpense`, `reimburseExpense` mirror the
  transition handlers of controllers/settings.controller.js (the expense
  controller section), with their exact error messages; the backing
  store is modelled as `Option Expense` (the record under the requested
  id, and whatever the handler leaves in its place).
* `approveLoad` / `approveRest` split `approveExpense` at its only store
  read (`findById`), so that the interleaving of two concurrent approve
  requests can be expressed: everything after the read runs on the
  snapshot and finishes with an unconditional `save`.
* the report pipelines (`expensesByCategory`, `expensesByStatus`,
  `expensesByMonth`, `expensesByEvent`, `topContributors`,
  `rankedLeaderboard`) mirror the MongoDB aggregations of the report
  controller (`getFinancialSummary`, `getLeaderboard`): `$match` is a
  filter, `$group` folds records into per-key rollups (groups emitted in
  first-appearance order; MongoDB fixes no group order, this is one
  faithful determinization), `$sort` is a stable sort on the named
  field, `$limit` is `take`.  The trailing `$lookup`/`$unwind` stages
  only decorate each row with the referenced user/event document and are
  not modelled.
* `updateExpense` mirrors the allow-list patch of the update handler,
  `closeYearExpense` the `Expense.updateMany({rotaractYear}, {isArchived:
  true})` of the archive controller's `closeYear`.
* `createExpense` and `addManualExpense` mirror the two creation paths.
-/

/-- `status` enumeration of the expense schema. -/
inductive Status where
  | pending
  | approved
  | rejected
  | reimbursed
  | paid
  deriving DecidableEq, Repr

/-- The string stored in the database for each status value. -/
def statusToString : Status → String
  | .pending => "pending"
  | .approved => "approved"
  | .rejected => "rejected"
  | .reimbursed => "reimbursed"
  | .paid => "paid"

/-- `category` enumeration of the expense schema. -/
inductive Category where
  | donation
  | personal_contribution
  | travel_expense
  | accommodation
  | event_material
  | food_refreshments
  | miscellaneous
  deriving DecidableEq, Repr

/-- The string stored in the database for each category value. -/
def categoryToString : Category → String
  | .donation => "donation"
  | .personal_contribution => "personal_contribution"
  | .travel_expense => "travel_expense"
  | .accommodation => "accommodation"
  | .event_material => "event_material"
  | .food_refreshments => "food_refreshments"
  | .miscellaneous => "miscellaneous"

/-- `paymentMode` enumeration of the expense schema. -/
inductive PayMode where
  | upi
  | cash
  | bank_transfer
  | cheque
  deriving DecidableEq, Repr

/-- Calendar date of expenditure; the report pipelines read its `$year`
and `$month` parts. -/
structure Date where
  year : Nat
  month : Nat
  day : Nat
  deriving DecidableEq, Repr

/-- One document of the `expenses` collection (models/Expense.model.js).
User and event references are identifiers (`Nat`), timestamps are the
`Date`/instant values the handlers write. -/
structure Expense where
  member : Nat
  event : Nat
  category : Category
  amount : Nat
  date : Date
  paymentMode : PayMode
  description : String
  notes : String
  billUrl : Option String
  billOriginalName : Option String
  status : Status
  approvedBy : Option Nat
  approvedAt : Option Nat
  rejectedBy : Option Nat
  rejectedAt : Option Nat
  rejectionReason : Option String
  reimbursedBy : Option Nat
  reimbursedAt : Option Nat
  reimbursementReference : Option String
  rotaractYear : String
  isArchived : Bool
  deriving DecidableEq, Repr

/-- What a transition handler can answer besides a success payload:
`notFound` is the 404 branch, `badRequest` the 400 branch carrying the
response's `message` string. -/
inductive TransitionError where
  | notFound
  | badRequest (message : String)
  deriving DecidableEq, Repr

/-- The 400 message of `approveExpense` for a non-pending expense:
`` `Cannot approve expense with status: ${expense.status}` ``. -/
def approveFailMsg (s : Status) : String :=
  "Cannot approve expense with status: " ++ statusToString s

/-- The 400 message of `rejectExpense` for a non-pending expense:
`` `Cannot reject expense with status: ${expense.status}` ``. -/
def rejectFailMsg (s : Status) : String :=
  "Cannot reject expense with status: " ++ statusToString s

/-- The 400 message of `reimburseExpense` for a non-approved expense
(a constant string in the source). -/
def reimburseFailMsg : String :=
  "Only approved expenses can be marked as reimbursed"

/-- The document written by a successful approval: status `approved`,
approver id and timestamp set (settings.controller.js, `approveExpense`). -/
def approvedVersion (e : Expense) (userId now : Nat) : Expense :=
  { e with status := .approved, approvedBy := some userId, approvedAt := some now }

/-- `approveExpense` handler: `findById`, in-memory status check, then
`save` of the modified document.  Returns the response and the store's
content afterwards. -/
def approveExpense (store : Option Expense) (userId now : Nat) :
    Except TransitionError Expense × Option Expense :=
  match store with
  | none => (.error .notFound, store)
  | some e =>
    if e.status ≠ .pending then
      (.error (.badRequest (approveFailMsg e.status)), store)
    else
      let e' := approvedVersion e userId now
      (.ok e', some e')

/-- The `findById` read of `approveExpense`, isolated: it returns a
snapshot of the store. -/
def approveLoad (store : Option Expense) : Option Expense := store

/-- The rest of `approveExpense` after the `findById` read: the
not-found check and status check run on the earlier snapshot, and the
`save` writes the modified snapshot over the current store
unconditionally (mongoose `save` issues no status condition). -/
def approveRest (snapshot : Option Expense) (userId now : Nat)
    (store : Option Expense) :
    Except TransitionError Expense × Option Expense :=
  match snapshot with
  | none => (.error .notFound, store)
  | some e =>
    if e.status ≠ .pending then
      (.error (.badRequest (approveFailMsg e.status)), store)
    else
      let e' := approvedVersion e userId now
      (.ok e', some e')

/-- JavaScript falsiness of the `reason` string: absent or empty. -/
def reasonMissing : Option String → Bool
  | none => true
  | some s => s == ""

/-- `rejectExpense` handler: the reason guard runs before the record is
even loaded; then `findById`, status check, and `save` of the rejected
document. -/
def rejectExpense (reason : Option String) (store : Option Expense)
    (userId now : Nat) :
    Except TransitionError Expense × Option Expense :=
  if reasonMissing reason then
    (.error (.badRequest "Rejection reason is required"), store)
  else
    match store with
    | none => (.error .notFound, store)
    | some e =>
      if e.status ≠ .pending then
        (.error (.badRequest (rejectFailMsg e.status)), store)
      else
        let e' := { e with status := .rejected, rejectedBy := some userId,
                           rejectedAt := some now, rejectionReason := reason }
        (.ok e', some e')

/-- `reimburseExpense` handler: `findById`, status check against
`approved`, then `save` of the reimbursed document. -/
def reimburseExpense (reference : Option String) (store : Option Expense)
    (userId now : Nat) :
    Except TransitionError Expense × Option Expense :=
  match store with
  | none => (.error .notFound, store)
  | some e =>
    if e.status ≠ .approved then
      (.error (.badRequest reimburseFailMsg), store)
    else
      let e' := { e with status := .reimbursed, reimbursedBy := some userId,
                         reimbursedAt := some now,
                         reimbursementReference := reference }
      (.ok e', some e')

/-- A transition request against one expense record: the three handler
actions with their caller-supplied arguments. -/
inductive ExpenseAction where
  | approve (userId now : Nat)
  | reject (userId now : Nat) (reason : Option String)
  | reimburse (userId now : Nat) (reference : Option String)
  deriving DecidableEq, Repr

/-- Run one transition handler on an existing record; `some` is the
successfully saved document, `none` any error response. -/
def applyAction (e : Expense) (a : ExpenseAction) : Option Expense :=
  match a with
  | .approve u t =>
    match (approveExpense (some e) u t).1 with
    | .ok e' => some e'
    | .error _ => none
  | .reject u t reason =>
    match (rejectExpense reason (some e) u t).1 with
    | .ok e' => some e'
    | .error _ => none
  | .reimburse u t reference =>
    match (reimburseExpense reference (some e) u t).1 with
    | .ok e' => some e'
    | .error _ => none

/-- Does `pat` occur at the head of `text`? -/
def matchesAt : List Char → List Char → Bool
  | [], _ => true
  | _ :: _, [] => false
  | a :: as, b :: bs => a == b && matchesAt as bs

/-- Does `pat` occur anywhere inside `text`? -/
def hasSubstring (pat : List Char) (text : List Char) : Bool :=
  matchesAt pat text ||
    match text with
    | [] => false
    | _ :: rest => hasSubstring pat rest

/-- An error message "carries" a status when the status's database
string occurs inside the message. -/
def carriesStatus (msg : String) (s : Status) : Prop :=
  hasSubstring (statusToString s).toList msg.toList = true

instance (msg : String) (s : Status) : Decidable (carriesStatus msg s) := by
  unfold carriesStatus; infer_instance

/-- One row of a `$group` stage output: the grouping key `_id`, the
summed `amount`, and the document count. -/
structure Rollup (κ : Type) where
  key : κ
  total : Nat
  count : Nat
  deriving DecidableEq, Repr

/-- Add one document's amount to the rollup list: bump the row with the
matching key, or open a new group at the end. -/
def bump {κ : Type} [DecidableEq κ] (k : κ) (amt : Nat) :
    List (Rollup κ) → List (Rollup κ)
  | [] => [⟨k, amt, 1⟩]
  | g :: gs =>
    if g.key = k then
      { g with total := g.total + amt, count := g.count + 1 } :: gs
    else
      g :: bump k amt gs

/-- `$group` over a key projection: fold the matched documents into
per-key sums and counts, groups in first-appearance order. -/
def groupByKey {κ : Type} [DecidableEq κ] (key : Expense → κ)
    (rs : List Expense) : List (Rollup κ) :=
  rs.foldl (fun acc e => bump (key e) e.amount acc) []

/-- Insert into a list sorted by the boolean relation `le`, keeping
earlier equal elements first (stable). -/
def insertLe {α : Type} (le : α → α → Bool) (a : α) : List α → List α
  | [] => [a]
  | b :: bs => if le b a then b :: insertLe le a bs else a :: b :: bs

/-- Stable sort by the boolean relation `le` (insertion sort, earlier
elements inserted first): models a `$sort` stage deterministically —
MongoDB fixes no order among ties. -/
def sortByLe {α : Type} (le : α → α → Bool) (l : List α) : List α :=
  l.foldl (fun acc a => insertLe le a acc) []

/-- `$sort: { total: -1 }` — greater totals first. -/
def totalDescLe {κ : Type} (g h : Rollup κ) : Bool :=
  Nat.ble h.total g.total

/-- `$sort: { "_id.year": 1, "_id.month": 1 }` — chronological order on
(year, month) keys. -/
def monthAscLe (g h : Rollup (Nat × Nat)) : Bool :=
  Nat.blt g.key.1 h.key.1 || (g.key.1 == h.key.1 && Nat.ble g.key.2 h.key.2)

/-- `$match: { rotaractYear: year }`. -/
def matchYear (year : String) (rs : List Expense) : List Expense :=
  rs.filter (fun e => e.rotaractYear == year)

/-- The statuses that count as contributions in the reports:
`{ $in: ["approved", "reimbursed", "paid"] }`. -/
def contributionStatuses : List Status := [.approved, .reimbursed, .paid]

/-- `$match` of the contributor pipelines: the fiscal year and a
contribution status. -/
def matchContrib (year : String) (rs : List Expense) : List Expense :=
  rs.filter (fun e => e.rotaractYear == year && contributionStatuses.contains e.status)

/-- `getFinancialSummary` by-category pipeline: match year, group by
`category`, sort by total descending. -/
def expensesByCategory (year : String) (rs : List Expense) :
    List (Rollup Category) :=
  sortByLe totalDescLe (groupByKey Expense.category (matchYear year rs))

/-- `getFinancialSummary` by-status pipeline: match year, group by
`status` — the source has no `$sort` stage here. -/
def expensesByStatus (year : String) (rs : List Expense) :
    List (Rollup Status) :=
  groupByKey Expense.status (matchYear year rs)

/-- `getFinancialSummary` by-month pipeline: match year, group by the
date's `$month`/`$year` parts, sort chronologically. -/
def expensesByMonth (year : String) (rs : List Expense) :
    List (Rollup (Nat × Nat)) :=
  sortByLe monthAscLe (groupByKey (fun e => (e.date.year, e.date.month)) (matchYear year rs))

/-- `getFinancialSummary` by-event pipeline up to its `$limit: 10`
stage: match year, group by `event`, sort by total descending, top 10
(the later `$lookup`/`$unwind` only joins the event document). -/
def expensesByEvent (year : String) (rs : List Expense) :
    List (Rollup Nat) :=
  (sortByLe totalDescLe (groupByKey Expense.event (matchYear year rs))).take 10

/-- `getFinancialSummary` top-contributors pipeline up to its
`$limit: 10`: match year and contribution status, group by `member`,
sort by total descending, top 10. -/
def topContributors (year : String) (rs : List Expense) :
    List (Rollup Nat) :=
  (sortByLe totalDescLe (groupByKey Expense.member (matchContrib year rs))).take 10

/-- `totals.totalExpenses` of `getFinancialSummary`:
`expensesByStatus.reduce((sum, item) => sum + item.total, 0)`. -/
def totalExpensesOf (year : String) (rs : List Expense) : Nat :=
  (expensesByStatus year rs).foldl (fun sum item => sum + item.total) 0

/-- One `$group` row of the `getLeaderboard` pipeline: member id, summed
contribution, document count, and the `$addToSet` of events. -/
structure LeadEntry where
  member : Nat
  totalContribution : Nat
  expenseCount : Nat
  eventsContributed : List Nat
  deriving DecidableEq, Repr

/-- `$addToSet: "$event"`: record the event id once. -/
def addToSet (x : Nat) (l : List Nat) : List Nat :=
  if l.contains x then l else l ++ [x]

/-- Fold one document into the leaderboard grouping. -/
def leadBump (m : Nat) (amt : Nat) (ev : Nat) :
    List LeadEntry → List LeadEntry
  | [] => [⟨m, amt, 1, [ev]⟩]
  | g :: gs =>
    if g.member = m then
      { g with totalContribution := g.totalContribution + amt,
               expenseCount := g.expenseCount + 1,
               eventsContributed := addToSet ev g.eventsContributed } :: gs
    else
      g :: leadBump m amt ev gs

/-- `$sort: { totalContribution: -1 }` of the leaderboard pipeline. -/
def leadDescLe (g h : LeadEntry) : Bool :=
  Nat.ble h.totalContribution g.totalContribution

/-- `getLeaderboard` pipeline up to its `$limit: 20`: match year and
contribution status, group by member, sort by total contribution
descending, top 20. -/
def leaderboardRows (year : String) (rs : List Expense) : List LeadEntry :=
  (sortByLe leadDescLe
    ((matchContrib year rs).foldl
      (fun acc e => leadBump e.member e.amount e.event acc) [])).take 20

/-- A leaderboard row as returned: `{ rank: index + 1, ...item }`. -/
structure RankedEntry where
  rank : Nat
  entry : LeadEntry
  deriving DecidableEq, Repr

/-- `leaderboard.map((item, index) => ({ rank: index + 1, ...item }))`. -/
def rankedLeaderboard (year : String) (rs : List Expense) :
    List RankedEntry :=
  (leaderboardRows year rs).enum.map (fun p => ⟨p.1 + 1, p.2⟩)

/-- The keys of the expense schema a request body could name. -/
inductive ExpenseField where
  | member
  | event
  | category
  | amount
  | date
  | paymentMode
  | description
  | notes
  | billUrl
  | billOriginalName
  | status
  | approvedBy
  | approvedAt
  | rejectedBy
  | rejectedAt
  | rejectionReason
  | reimbursedBy
  | reimbursedAt
  | reimbursementReference
  | rotaractYear
  | isArchived
  deriving DecidableEq, Repr

/-- A value a request body can carry for a field. -/
inductive FieldValue where
  | natV (n : Nat)
  | strV (s : String)
  | optStrV (s : Option String)
  | optNatV (n : Option Nat)
  | catV (c : Category)
  | payV (p : PayMode)
  | statusV (s : Status)
  | dateV (d : Date)
  | boolV (b : Bool)
  deriving DecidableEq, Repr

/-- Write one named field of the document, as `findByIdAndUpdate`'s
`$set` does; a value of the wrong type for the field is rejected by the
schema validators and leaves the document unchanged. -/
def setField (e : Expense) : ExpenseField → FieldValue → Expense
  | .member, .natV n => { e with member := n }
  | .event, .natV n => { e with event := n }
  | .category, .catV c => { e with category := c }
  | .amount, .natV n => { e with amount := n }
  | .date, .dateV d => { e with date := d }
  | .paymentMode, .payV p => { e with paymentMode := p }
  | .description, .strV s => { e with description := s }
  | .notes, .strV s => { e with notes := s }
  | .billUrl, .optStrV s => { e with billUrl := s }
  | .billOriginalName, .optStrV s => { e with billOriginalName := s }
  | .status, .statusV s => { e with status := s }
  | .approvedBy, .optNatV n => { e with approvedBy := n }
  | .approvedAt, .optNatV n => { e with approvedAt := n }
  | .rejectedBy, .optNatV n => { e with rejectedBy := n }
  | .rejectedAt, .optNatV n => { e with rejectedAt := n }
  | .rejectionReason, .optStrV s => { e with rejectionReason := s }
  | .reimbursedBy, .optNatV n => { e with reimbursedBy := n }
  | .reimbursedAt, .optNatV n => { e with reimbursedAt := n }
  | .reimbursementReference, .optStrV s => { e with reimbursementReference := s }
  | .rotaractYear, .strV s => { e with rotaractYear := s }
  | .isArchived, .boolV b => { e with isArchived := b }
  | _, _ => e

/-- `allowedUpdates` of `updateExpense` in settings.controller.js. -/
def allowedUpdates : List ExpenseField :=
  [.category, .amount, .date, .paymentMode, .description, .notes]

/-- An uploaded bill: the saved filename and the original name. -/
structure UploadedFile where
  filename : String
  originalname : String
  deriving DecidableEq, Repr

/-- `updateExpense` handler body: keep only the body keys named in
`allowedUpdates`, add the bill fields when a file was uploaded, and
apply the patch to the stored document. -/
def updateExpense (e : Expense) (body : List (ExpenseField × FieldValue))
    (file : Option UploadedFile) : Expense :=
  let updates := body.filter (fun kv => allowedUpdates.contains kv.1)
  let e1 := updates.foldl (fun acc kv => setField acc kv.1 kv.2) e
  match file with
  | none => e1
  | some f =>
    { e1 with billUrl := some ("/uploads/bills/" ++ f.filename),
              billOriginalName := some f.originalname }

/-- Effect of `closeYear`'s
`Expense.updateMany({ rotaractYear: currentYear }, { isArchived: true })`
on one expense document. -/
def closeYearExpense (currentYear : String) (e : Expense) : Expense :=
  if e.rotaractYear = currentYear then { e with isArchived := true } else e

/-- `createExpense` handler's `Expense.create` call (normal member
submission): no `status` is passed, so the schema default `pending`
applies; approval metadata starts unset; the fiscal year is the
`getFinancialYear()` value passed in as `currentYear`. -/
def createExpense (memberId eventId : Nat) (category : Category)
    (amount : Nat) (date : Date) (paymentMode : PayMode)
    (description notes : String) (file : Option UploadedFile)
    (currentYear : String) : Expense :=
  { member := memberId
    event := eventId
    category := category
    amount := amount
    date := date
    paymentMode := paymentMode
    description := description
    notes := notes
    billUrl := file.map (fun f => "/uploads/bills/" ++ f.filename)
    billOriginalName := file.map UploadedFile.originalname
    status := .pending
    approvedBy := none
    approvedAt := none
    rejectedBy := none
    rejectedAt := none
    rejectionReason := none
    reimbursedBy := none
    reimbursedAt := none
    reimbursementReference := none
    rotaractYear := currentYear
    isArchived := false }

/-- Request body of `addManualExpense`; `none` models a missing field
(or, for `amount`, an unparsable number — JavaScript `parseFloat`
yielding `NaN`, which the `!amount` guard also rejects, as it does 0). -/
structure ManualExpenseReq where
  member : Option Nat
  event : Option Nat
  category : Option Category
  amount : Option Nat
  date : Option Date
  paymentMode : Option PayMode
  description : Option String
  notes : Option String
  status : Option Status
  deriving DecidableEq, Repr

/-- The error branches of `addManualExpense`. -/
inductive ManualExpenseError where
  | missingFields
  | memberNotFound
  | eventNotFound
  deriving DecidableEq, Repr

/-- `addManualExpense` handler: required-field guard (`!member || …`),
existence checks of the member and event, then `Expense.create` with
`status: req.body.status || "approved"` and the caller recorded as
approver (`approvedBy: req.user._id, approvedAt: new Date()`),
unconditionally.  `users`/`events` are the ids present in the
collections. -/
def addManualExpense (users events : List Nat) (req : ManualExpenseReq)
    (file : Option UploadedFile) (userId now : Nat) (currentYear : String) :
    Except ManualExpenseError Expense :=
  match req.member, req.event, req.category, req.amount, req.date, req.paymentMode with
  | some m, some ev, some cat, some amt, some d, some pm =>
    if amt = 0 then .error .missingFields
    else if ¬ users.contains m then .error .memberNotFound
    else if ¬ events.contains ev then .error .eventNotFound
    else
      .ok { member := m
            event := ev
            category := cat
            amount := amt
            date := d
            paymentMode := pm
            description := req.description.getD ""
            notes := req.notes.getD ""
            billUrl := file.map (fun f => "/uploads/bills/" ++ f.filename)
            billOriginalName := file.map UploadedFile.originalname
            status := req.status.getD .approved
            approvedBy := some userId
            approvedAt := some now
            rejectedBy := none
            rejectedAt := none
            rejectionReason := none
            reimbursedBy := none
            reimbursedAt := none
            reimbursementReference := none
            rotaractYear := currentYear
            isArchived := false }
  | _, _, _, _, _, _ => .error .missingFields

/-- Build an expense document with the given key fields; the remaining
fields take their creation defaults. -/
def mkExpense (memberId eventId : Nat) (c : Category) (amt : Nat)
    (d : Date) (s : Status) (year : String) : Expense :=
  { member := memberId
    event := eventId
    category := c
    amount := amt
    date := d
    paymentMode := .cash
    description := ""
    notes := ""
    billUrl := none
    billOriginalName := none
    status := s
    approvedBy := none
    approvedAt := none
    rejectedBy := none
    rejectedAt := none
    rejectionReason := none
    reimbursedBy := none
    reimbursedAt := none
    reimbursementReference := none
    rotaractYear := year
    isArchived := false }

/-- A concrete pending expense. -/
def exPending : Expense :=
  mkExpense 1 1 .travel_expense 1500 ⟨2025, 8, 1⟩ .pending "2025-2026"

/-- A concrete approved expense. -/
def exApproved : Expense :=
  mkExpense 2 1 .donation 300 ⟨2025, 8, 2⟩ .approved "2025-2026"

/-- A concrete rejected expense. -/
def exRejected : Expense :=
  mkExpense 3 1 .donation 200 ⟨2025, 8, 3⟩ .rejected "2025-2026"

/-- A concrete expense with the administrative `paid` status. -/
def exPaid : Expense :=
  mkExpense 4 2 .miscellaneous 50 ⟨2025, 8, 4⟩ .paid "2025-2026"

/-- Record set refuting the claimed ordering of the status rollup: a
small pending expense grouped before a large approved one. -/
def c5Recs1 : List Expense :=
  [mkExpense 1 1 .donation 10 ⟨2025, 8, 1⟩ .pending "2025-2026",
   mkExpense 2 1 .donation 100 ⟨2025, 8, 2⟩ .approved "2025-2026"]

/-- Record set refuting the claimed tie-break of the category rollup:
equal totals, `travel_expense` encountered before `donation`. -/
def c5Recs2 : List Expense :=
  [mkExpense 1 1 .travel_expense 50 ⟨2025, 8, 1⟩ .pending "2025-2026",
   mkExpense 2 1 .donation 50 ⟨2025, 8, 2⟩ .pending "2025-2026"]

/-- Record set for the contributor views: one approved, one paid, one
pending (the pending one must not count) expense. -/
def c7Recs : List Expense :=
  [mkExpense 1 1 .donation 500 ⟨2025, 8, 1⟩ .approved "2025-2026",
   mkExpense 2 2 .travel_expense 480 ⟨2025, 8, 2⟩ .paid "2025-2026",
   mkExpense 3 1 .donation 999 ⟨2025, 8, 3⟩ .pending "2025-2026"]

/-- The `addManualExpense` request used as a concrete witness: complete,
with an explicitly requested `pending` status. -/
def manualReq : ManualExpenseReq :=
  { member := some 3
    event := some 4
    category := some .donation
    amount := some 200
    date := some ⟨2025, 9, 1⟩
    paymentMode := some .upi
    description := none
    notes := none
    status := some .pending }

/-- The document `addManualExpense` creates for `manualReq` when user 7
calls it at instant 99. -/
def manualEx : Expense :=
  { member := 3
    event := 4
    category := .donation
    amount := 200
    date := ⟨2025, 9, 1⟩
    paymentMode := .upi
    description := ""
    notes := ""
    billUrl := none
    billOriginalName := none
    status := .pending
    approvedBy := some 7
    approvedAt := some 99
    rejectedBy := none
    rejectedAt := none
    rejectionReason := none
    reimbursedBy := none
    reimbursedAt := none
    reimbursementReference := none
    rotaractYear := "2025-2026"
    isArchived := false }

/-- Strict lexicographic comparison of character lists. -/
def charListLt : List Char → List Char → Bool
  | [], [] => false
  | [], _ :: _ => true
  | _ :: _, [] => false
  | a :: as, b :: bs =>
    if a < b then true else if b < a then false else charListLt as bs

/-- Strict lexicographic comparison of strings (the order of the
database's group keys). -/
def strLtB (a b : String) : Bool := charListLt a.toList b.toList

/-- Does every pair of elements, in order, satisfy `r`? -/
def pairwiseB {α : Type} (r : α → α → Bool) : List α → Bool
  | [] => true
  | a :: as => as.all (r a) && pairwiseB r as

/-- The ordering the spec claims for every rollup except month, written
from the spec's words: `totalAmount` descending, ties broken by the
group key's string ascending. -/
def specC5OrderedB {κ : Type} (keyStr : κ → String) (l : List (Rollup κ)) : Bool :=
  pairwiseB (fun a b =>
    Nat.blt b.total a.total ||
      (a.total == b.total && strLtB (keyStr a.key) (keyStr b.key))) l

/-- The first (approved) record of `c7Recs`. -/
def exContrib : Expense :=
  mkExpense 1 1 .donation 500 ⟨2025, 8, 1⟩ .approved "2025-2026"

theorem mem_insertLe {α : Type} (le : α → α → Bool) (a x : α) :
    ∀ (l : List α), x ∈ insertLe le a l → x = a ∨ x ∈ l := by
  intro l
  induction l with
  | nil =>
    intro h
    simp only [insertLe, List.mem_singleton] at h
    exact Or.inl h
  | cons b bs ih =>
    intro h
    simp only [insertLe] at h
    by_cases hba : le b a = true
    · rw [if_pos hba] at h
      rcases List.mem_cons.mp h with h | h
      · exact Or.inr (h ▸ List.mem_cons_self b bs)
      · rcases ih h with h' | h'
        · exact Or.inl h'
        · exact Or.inr (List.mem_cons_of_mem b h')
    · rw [if_neg hba] at h
      exact List.mem_cons.mp h

theorem pairwise_insertLe {α : Type} (le : α → α → Bool)
    (total : ∀ a b, le a b = true ∨ le b a = true)
    (htrans : ∀ a b c, le a b = true → le b c = true → le a c = true)
    (a : α) :
    ∀ (l : List α), l.Pairwise (fun x y => le x y = true) →
      (insertLe le a l).Pairwise (fun x y => le x y = true) := by
  intro l
  induction l with
  | nil =>
    intro _
    simp [insertLe]
  | cons b bs ih =>
    intro hp
    rcases List.pairwise_cons.mp hp with ⟨hb, hbs⟩
    simp only [insertLe]
    by_cases hba : le b a = true
    · rw [if_pos hba]
      refine List.pairwise_cons.mpr ⟨?_, ih hbs⟩
      intro x hx
      rcases mem_insertLe le a x bs hx with rfl | hx'
      · exact hba
      · exact hb x hx'
    · rw [if_neg hba]
      refine List.pairwise_cons.mpr ⟨?_, hp⟩
      intro x hx
      rcases List.mem_cons.mp hx with rfl | hx'
      · rcases total a x with h | h
        · exact h
        · exact absurd h hba
      · rcases total a b with h | h
        · exact htrans a b x h (hb x hx')
        · exact absurd h hba

theorem pairwise_sortByLe {α : Type} (le : α → α → Bool)
    (total : ∀ a b, le a b = true ∨ le b a = true)
    (htrans : ∀ a b c, le a b = true → le b c = true → le a c = true)
    (l : List α) :
    (sortByLe le l).Pairwise (fun x y => le x y = true) := by
  suffices h : ∀ (l acc : List α), acc.Pairwise (fun x y => le x y = true) →
      (l.foldl (fun acc a => insertLe le a acc) acc).Pairwise
        (fun x y => le x y = true) by
    exact h l [] (List.Pairwise.nil)
  intro l
  induction l with
  | nil => intro acc h; simpa using h
  | cons a as ih =>
    intro acc h
    exact ih _ (pairwise_insertLe le total htrans a acc h)

theorem totalDescLe_total {κ : Type} (g h : Rollup κ) :
    totalDescLe g h = true ∨ totalDescLe h g = true := by
  simp only [totalDescLe, Nat.ble_eq]
  omega

theorem totalDescLe_trans {κ : Type} (g h k : Rollup κ) :
    totalDescLe g h = true → totalDescLe h k = true → totalDescLe g k = true := by
  simp only [totalDescLe, Nat.ble_eq]
  omega

theorem monthAscLe_iff (g h : Rollup (Nat × Nat)) :
    monthAscLe g h = true ↔
      g.key.1 < h.key.1 ∨ (g.key.1 = h.key.1 ∧ g.key.2 ≤ h.key.2) := by
  simp [monthAscLe, Nat.blt_eq, Nat.ble_eq]

theorem monthAscLe_total (g h : Rollup (Nat × Nat)) :
    monthAscLe g h = true ∨ monthAscLe h g = true := by
  rw [monthAscLe_iff, monthAscLe_iff]
  omega

theorem monthAscLe_trans (g h k : Rollup (Nat × Nat)) :
    monthAscLe g h = true → monthAscLe h k = true → monthAscLe g k = true := by
  rw [monthAscLe_iff, monthAscLe_iff, monthAscLe_iff]
  omega

theorem leadDescLe_total (g h : LeadEntry) :
    leadDescLe g h = true ∨ leadDescLe h g = true := by
  simp only [leadDescLe, Nat.ble_eq]
  omega

theorem leadDescLe_trans (g h k : LeadEntry) :
    leadDescLe g h = true → leadDescLe h k = true → leadDescLe g k = true := by
  simp only [leadDescLe, Nat.ble_eq]
  omega

theorem sumTotals_bump {κ : Type} [DecidableEq κ] (k : κ) (amt : Nat) :
    ∀ (gs : List (Rollup κ)),
      ((bump k amt gs).map Rollup.total).sum = (gs.map Rollup.total).sum + amt := by
  intro gs
  induction gs with
  | nil => simp [bump]
  | cons g gs ih =>
    simp only [bump]
    by_cases h : g.key = k
    · rw [if_pos h]
      simp only [List.map_cons, List.sum_cons]
      omega
    · rw [if_neg h]
      simp only [List.map_cons, List.sum_cons, ih]
      omega

theorem sumTotals_groupByKey {κ : Type} [DecidableEq κ]
    (key : Expense → κ) (rs : List Expense) :
    ((groupByKey key rs).map Rollup.total).sum = (rs.map Expense.amount).sum := by
  suffices h : ∀ (rs : List Expense) (acc : List (Rollup κ)),
      (((rs.foldl (fun acc e => bump (key e) e.amount acc) acc).map Rollup.total).sum)
        = (acc.map Rollup.total).sum + (rs.map Expense.amount).sum by
    simpa [groupByKey] using h rs []
  intro rs
  induction rs with
  | nil => intro acc; simp
  | cons e es ih =>
    intro acc
    simp only [List.foldl_cons, List.map_cons, List.sum_cons, ih, sumTotals_bump]
    omega

theorem foldl_add_total (l : List (Rollup Status)) :
    ∀ (init : Nat),
      l.foldl (fun sum item => sum + item.total) init
        = init + (l.map Rollup.total).sum := by
  induction l with
  | nil => intro init; simp
  | cons g gs ih =>
    intro init
    simp only [List.foldl_cons, List.map_cons, List.sum_cons, ih]
    omega

theorem approveExpense_ok_iff (e e' : Expense) (u t : Nat) :
    (approveExpense (some e) u t).1 = .ok e' ↔
      e.status = .pending ∧ e' = approvedVersion e u t := by
  simp only [approveExpense]
  by_cases h : e.status = Status.pending
  · simp [h, eq_comm]
  · simp [h]

theorem rejectExpense_ok_iff (reason : Option String) (e e' : Expense) (u t : Nat) :
    (rejectExpense reason (some e) u t).1 = .ok e' ↔
      reasonMissing reason = false ∧ e.status = .pending
      ∧ e' = { e with status := .rejected, rejectedBy := some u,
                      rejectedAt := some t, rejectionReason := reason } := by
  simp only [rejectExpense]
  by_cases hr : reasonMissing reason = true
  · simp [hr]
  · rw [if_neg hr]
    by_cases h : e.status = Status.pending
    · simp [h, eq_comm, Bool.not_eq_true _ ▸ hr]
    · simp [h]

theorem reimburseExpense_ok_iff (reference : Option String) (e e' : Expense) (u t : Nat) :
    (reimburseExpense reference (some e) u t).1 = .ok e' ↔
      e.status = .approved
      ∧ e' = { e with status := .reimbursed, reimbursedBy := some u,
                      reimbursedAt := some t, reimbursementReference := reference } := by
  simp only [reimburseExpense]
  by_cases h : e.status = Status.approved
  · simp [h, eq_comm]
  · simp [h]

theorem applyAction_some_iff (e : Expense) (a : ExpenseAction) (e' : Expense) :
    applyAction e a = some e' ↔
      (∃ u t, a = .approve u t ∧ e.status = .pending ∧ e' = approvedVersion e u t)
      ∨ (∃ u t reason, a = .reject u t reason ∧ reasonMissing reason = false
          ∧ e.status = .pending
          ∧ e' = { e with status := .rejected, rejectedBy := some u,
                          rejectedAt := some t, rejectionReason := reason })
      ∨ (∃ u t reference, a = .reimburse u t reference ∧ e.status = .approved
          ∧ e' = { e with status := .reimbursed, reimbursedBy := some u,
                          reimbursedAt := some t,
                          reimbursementReference := reference }) := by
  cases a with
  | approve u t =>
    simp only [applyAction]
    constructor
    · intro h
      cases hm : (approveExpense (some e) u t).1 with
      | ok x =>
        rw [hm] at h
        simp only [Option.some.injEq] at h
        rcases (approveExpense_ok_iff e x u t).mp hm with ⟨hs, hx⟩
        exact Or.inl ⟨u, t, rfl, hs, by rw [← h, hx]⟩
      | error err => rw [hm] at h; cases h
    · rintro (⟨u', t', heq, hs, he'⟩ | ⟨u', t', r', heq, _⟩ | ⟨u', t', r', heq, _⟩) <;>
        cases heq
      rw [(approveExpense_ok_iff e e' _ _).mpr ⟨hs, he'⟩]
  | reject u t reason =>
    simp only [applyAction]
    constructor
    · intro h
      cases hm : (rejectExpense reason (some e) u t).1 with
      | ok x =>
        rw [hm] at h
        simp only [Option.some.injEq] at h
        rcases (rejectExpense_ok_iff reason e x u t).mp hm with ⟨hr, hs, hx⟩
        exact Or.inr (Or.inl ⟨u, t, reason, rfl, hr, hs, by rw [← h, hx]⟩)
      | error err => rw [hm] at h; cases h
    · rintro (⟨u', t', heq, _⟩ | ⟨u', t', r', heq, hr, hs, he'⟩ | ⟨u', t', r', heq, _⟩) <;>
        cases heq
      rw [(rejectExpense_ok_iff _ e e' _ _).mpr ⟨hr, hs, he'⟩]
  | reimburse u t reference =>
    simp only [applyAction]
    constructor
    · intro h
      cases hm : (reimburseExpense reference (some e) u t).1 with
      | ok x =>
        rw [hm] at h
        simp only [Option.some.injEq] at h
        rcases (reimburseExpense_ok_iff reference e x u t).mp hm with ⟨hs, hx⟩
        exact Or.inr (Or.inr ⟨u, t, reference, rfl, hs, by rw [← h, hx]⟩)
      | error err => rw [hm] at h; cases h
    · rintro (⟨u', t', heq, _⟩ | ⟨u', t', r', heq, _⟩ | ⟨u', t', r', heq, hs, he'⟩) <;>
        cases heq
      rw [(reimburseExpense_ok_iff _ e e' _ _).mpr ⟨hs, he'⟩]

/-- **C1**: the transition handlers realize exactly the claimed state
machine: from `pending` the reachable statuses are exactly
`{approved, rejected}` (via approve and reject), from `approved` exactly
`{reimbursed}` (via reimburse), and no transition succeeds from
`rejected`, `reimbursed` or `paid`. -/
theorem approval_state_machine :
    (∀ (e : Expense) (a : ExpenseAction) (e' : Expense),
        applyAction e a = some e' →
        (e.status = .pending ∧ (e'.status = .approved ∨ e'.status = .rejected))
        ∨ (e.status = .approved ∧ e'.status = .reimbursed))
    ∧ (∀ e : Expense, e.status = .pending →
        ∃ (a : ExpenseAction) (e' : Expense),
          applyAction e a = some e' ∧ e'.status = .approved)
    ∧ (∀ e : Expense, e.status = .pending →
        ∃ (a : ExpenseAction) (e' : Expense),
          applyAction e a = some e' ∧ e'.status = .rejected)
    ∧ (∀ e : Expense, e.status = .approved →
        ∃ (a : ExpenseAction) (e' : Expense),
          applyAction e a = some e' ∧ e'.status = .reimbursed)
    ∧ (∀ (e : Expense) (a : ExpenseAction),
        e.status = .rejected ∨ e.status = .reimbursed ∨ e.status = .paid →
        applyAction e a = none) := by
  refine ⟨?_, ?_, ?_, ?_, ?_⟩
  · intro e a e' h
    rcases (applyAction_some_iff e a e').mp h with
      ⟨u, t, _, hs, he'⟩ | ⟨u, t, r, _, _, hs, he'⟩ | ⟨u, t, r, _, hs, he'⟩
    · exact Or.inl ⟨hs, Or.inl (by rw [he']; rfl)⟩
    · exact Or.inl ⟨hs, Or.inr (by rw [he'])⟩
    · exact Or.inr ⟨hs, by rw [he']⟩
  · intro e h
    exact ⟨.approve 0 0, approvedVersion e 0 0,
      (applyAction_some_iff e _ _).mpr (Or.inl ⟨0, 0, rfl, h, rfl⟩), rfl⟩
  · intro e h
    refine ⟨.reject 0 0 (some "r"),
      { e with status := .rejected, rejectedBy := some 0, rejectedAt := some 0,
               rejectionReason := some "r" }, ?_, rfl⟩
    exact (applyAction_some_iff e _ _).mpr
      (Or.inr (Or.inl ⟨0, 0, some "r", rfl, rfl, h, rfl⟩))
  · intro e h
    refine ⟨.reimburse 0 0 none,
      { e with status := .reimbursed, reimbursedBy := some 0,
               reimbursedAt := some 0, reimbursementReference := none }, ?_, rfl⟩
    exact (applyAction_some_iff e _ _).mpr
      (Or.inr (Or.inr ⟨0, 0, none, rfl, h, rfl⟩))
  · intro e a h
    cases ha : applyAction e a with
    | none => rfl
    | some e' =>
      rcases (applyAction_some_iff e a e').mp ha with
        ⟨_, _, _, hs, _⟩ | ⟨_, _, _, _, _, hs, _⟩ | ⟨_, _, _, _, hs, _⟩ <;>
        rcases h with h | h | h <;> rw [hs] at h <;> cases h

/-- Witness for C1: no transition succeeds on a rejected expense, and a
pending one can be approved. -/
theorem approval_state_machine_witness :
    applyAction exRejected (ExpenseAction.approve 1 2) = none
    ∧ (∃ (a : ExpenseAction) (e' : Expense),
        applyAction exPending a = some e' ∧ e'.status = .approved) :=
  ⟨approval_state_machine.2.2.2.2 exRejected (.approve 1 2) (Or.inl rfl),
   approval_state_machine.2.1 exPending rfl⟩

/-- **C2** (counterexample to the claim): two approve calls on the same
pending record, interleaved read–read–write–write, BOTH return success
(no `Conflict` is ever produced), refuting "exactly one succeeds, the
other receives `Conflict`"; the stored approver is simply the last
writer. -/
theorem approve_both_succeed_counterexample :
    (approveRest (approveLoad (some exPending)) 1 10 (some exPending)).1
      = .ok (approvedVersion exPending 1 10)
    ∧ (approveRest (approveLoad (some exPending)) 2 20
        ((approveRest (approveLoad (some exPending)) 1 10 (some exPending)).2)).1
      = .ok (approvedVersion exPending 2 20)
    ∧ (approveRest (approveLoad (some exPending)) 2 20
        ((approveRest (approveLoad (some exPending)) 1 10 (some exPending)).2)).2
      = some (approvedVersion exPending 2 20) :=
  ⟨rfl, rfl, rfl⟩

/-- **C2** (amended): `approveExpense` is a non-atomic read–check–write
(`findById`, in-memory pending check, unconditional `save`), not a
single conditional update; when the reads of two concurrent approve
calls both observe the pending record, both calls succeed and the final
approver is the last writer; only when the second read observes the
first write does the second call fail, and then with the 400
invalid-status error, not a `Conflict`. -/
theorem approve_read_check_write :
    (∀ (store : Option Expense) (u t : Nat),
        approveExpense store u t = approveRest (approveLoad store) u t store)
    ∧ (∀ (e : Expense) (u1 t1 u2 t2 : Nat), e.status = .pending →
        (approveRest (approveLoad (some e)) u1 t1 (some e)).1
          = .ok (approvedVersion e u1 t1)
        ∧ (approveRest (approveLoad (some e)) u2 t2
            ((approveRest (approveLoad (some e)) u1 t1 (some e)).2)).1
          = .ok (approvedVersion e u2 t2)
        ∧ (approveRest (approveLoad (some e)) u2 t2
            ((approveRest (approveLoad (some e)) u1 t1 (some e)).2)).2
          = some (approvedVersion e u2 t2))
    ∧ (∀ (e : Expense) (u1 t1 u2 t2 : Nat), e.status = .pending →
        (approveExpense ((approveExpense (some e) u1 t1).2) u2 t2).1
          = .error (.badRequest (approveFailMsg .approved))) := by
  refine ⟨?_, ?_, ?_⟩
  · intro store u t
    cases store <;> rfl
  · intro e u1 t1 u2 t2 h
    refine ⟨?_, ?_, ?_⟩ <;> simp [approveRest, approveLoad, h]
  · intro e u1 t1 u2 t2 h
    simp [approveExpense, h, approvedVersion]

/-- Witness for C2's amended theorem at a concrete pending expense. -/
theorem approve_read_check_write_witness :
    (approveExpense ((approveExpense (some exPending) 1 10).2) 2 20).1
      = .error (.badRequest (approveFailMsg .approved)) :=
  approve_read_check_write.2.2 exPending 1 10 2 20 rfl

theorem approveFailMsg_carries (s : Status) :
    carriesStatus (approveFailMsg s) s := by
  cases s <;> decide

theorem rejectFailMsg_carries (s : Status) :
    carriesStatus (rejectFailMsg s) s := by
  cases s <;> decide

/-- **C3** (counterexample to the claim): `reimburseExpense` on a
pending expense fails and leaves the record unchanged, but its error
message is a fixed string that does not carry the record's current
status. -/
theorem reimburse_error_counterexample :
    reimburseExpense none (some exPending) 1 0
      = (.error (.badRequest reimburseFailMsg), some exPending)
    ∧ ¬ carriesStatus reimburseFailMsg .pending :=
  ⟨rfl, by decide⟩

/-- **C3** (amended): a transition invoked from a status that fails its
precondition leaves the store unchanged and fails with a 400 error; for
approve and reject the message carries the record's current status,
while reimburse answers a fixed message. -/
theorem invalid_transition_errors :
    ∀ (e : Expense) (u t : Nat) (reason reference : Option String),
      (e.status ≠ .pending →
        approveExpense (some e) u t
          = (.error (.badRequest (approveFailMsg e.status)), some e)
        ∧ carriesStatus (approveFailMsg e.status) e.status)
      ∧ (e.status ≠ .pending → reasonMissing reason = false →
        rejectExpense reason (some e) u t
          = (.error (.badRequest (rejectFailMsg e.status)), some e)
        ∧ carriesStatus (rejectFailMsg e.status) e.status)
      ∧ (e.status ≠ .approved →
        reimburseExpense reference (some e) u t
          = (.error (.badRequest reimburseFailMsg), some e)) := by
  intro e u t reason reference
  refine ⟨?_, ?_, ?_⟩
  · intro h
    exact ⟨by simp [approveExpense, h], approveFailMsg_carries e.status⟩
  · intro h hr
    exact ⟨by simp [rejectExpense, hr, h], rejectFailMsg_carries e.status⟩
  · intro h
    simp [reimburseExpense, h]

/-- Witness for C3's amended theorem on a concrete `paid` expense. -/
theorem invalid_transition_errors_witness :
    (approveExpense (some exPaid) 1 0
        = (.error (.badRequest (approveFailMsg exPaid.status)), some exPaid)
      ∧ carriesStatus (approveFailMsg exPaid.status) exPaid.status)
    ∧ rejectExpense (some "dup") (some exPaid) 1 0
        = (.error (.badRequest (rejectFailMsg exPaid.status)), some exPaid)
    ∧ reimburseExpense none (some exPaid) 1 0
        = (.error (.badRequest reimburseFailMsg), some exPaid) := by
  have h := invalid_transition_errors exPaid 1 0 (some "dup") none
  exact ⟨h.1 (by decide), (h.2.1 (by decide) rfl).1, h.2.2 (by decide)⟩

/-- **C4**: a missing or empty rejection reason fails with the
validation error before the record is even loaded, leaving the store
unchanged whatever the expense's status is. -/
theorem reject_requires_reason :
    ∀ (reason : Option String) (store : Option Expense) (u t : Nat),
      reasonMissing reason = true →
      rejectExpense reason store u t
        = (.error (.badRequest "Rejection reason is required"), store) := by
  intro reason store u t h
  simp [rejectExpense, h]

/-- Witness for C4: empty reason on an already-approved expense. -/
theorem reject_requires_reason_witness :
    reasonMissing (some "") = true
    ∧ rejectExpense (some "") (some exApproved) 1 0
        = (.error (.badRequest "Rejection reason is required"), some exApproved) :=
  ⟨rfl, reject_requires_reason (some "") (some exApproved) 1 0 rfl⟩

/-- **C5** (counterexample to the claim): the by-status rollup is not
sorted at all (the source pipeline has no `$sort` stage), and the
by-category rollup does not break ties by group key ascending. -/
theorem rollup_ordering_counterexample :
    specC5OrderedB statusToString (expensesByStatus "2025-2026" c5Recs1) = false
    ∧ specC5OrderedB categoryToString (expensesByCategory "2025-2026" c5Recs2) = false :=
  ⟨rfl, rfl⟩

/-- **C5** (amended): the category, event and contributor rollups are
sorted by total descending with ties left in the order the groups were
formed; the status rollup is emitted unsorted, straight from the
grouping; the month rollup is sorted chronologically by year then
month. -/
theorem rollup_ordering :
    ∀ (year : String) (rs : List Expense),
      List.Pairwise (fun a b => b.total ≤ a.total) (expensesByCategory year rs)
      ∧ expensesByStatus year rs = groupByKey Expense.status (matchYear year rs)
      ∧ List.Pairwise (fun a b => b.total ≤ a.total) (expensesByEvent year rs)
      ∧ List.Pairwise (fun a b => b.total ≤ a.total) (topContributors year rs)
      ∧ List.Pairwise
          (fun (a b : Rollup (Nat × Nat)) =>
            a.key.1 < b.key.1 ∨ (a.key.1 = b.key.1 ∧ a.key.2 ≤ b.key.2))
          (expensesByMonth year rs) := by
  intro year rs
  refine ⟨?_, rfl, ?_, ?_, ?_⟩
  · exact (pairwise_sortByLe totalDescLe totalDescLe_total totalDescLe_trans _).imp
      (fun h => Nat.ble_eq.mp h)
  · exact ((pairwise_sortByLe totalDescLe totalDescLe_total totalDescLe_trans
      (groupByKey Expense.event (matchYear year rs))).sublist
        (List.take_sublist 10 _)).imp (fun h => Nat.ble_eq.mp h)
  · exact ((pairwise_sortByLe totalDescLe totalDescLe_total totalDescLe_trans
      (groupByKey Expense.member (matchContrib year rs))).sublist
        (List.take_sublist 10 _)).imp (fun h => Nat.ble_eq.mp h)
  · exact (pairwise_sortByLe monthAscLe monthAscLe_total monthAscLe_trans _).imp
      (fun h => (monthAscLe_iff _ _).mp h)

/-- **C6**: grouping by status partitions the records of the year: the
group totals sum to the ungrouped sum of all amounts, and the
`totalExpenses` fold over the status rollup equals that grand total. -/
theorem status_rollup_total :
    ∀ (year : String) (rs : List Expense),
      ((expensesByStatus year rs).map Rollup.total).sum
        = ((matchYear year rs).map Expense.amount).sum
      ∧ totalExpensesOf year rs = ((matchYear year rs).map Expense.amount).sum := by
  intro year rs
  have h1 := sumTotals_groupByKey Expense.status (matchYear year rs)
  refine ⟨h1, ?_⟩
  unfold totalExpensesOf
  rw [foldl_add_total]
  simpa using h1

/-- **C7**: the top-contributors view is the member rollup of records in
a contribution status, sorted by total descending and cut to 10 (20 for
the leaderboard); leaderboard ranks are the 1-based positions after the
cut. -/
theorem contributor_views :
    ∀ (year : String) (rs : List Expense),
      topContributors year rs
        = (sortByLe totalDescLe
            (groupByKey Expense.member (matchContrib year rs))).take 10
      ∧ (∀ e ∈ matchContrib year rs,
          e.rotaractYear = year ∧ e.status ∈ contributionStatuses)
      ∧ (topContributors year rs).length ≤ 10
      ∧ (leaderboardRows year rs).length ≤ 20
      ∧ List.Pairwise (fun a b => b.totalContribution ≤ a.totalContribution)
          (leaderboardRows year rs)
      ∧ (rankedLeaderboard year rs).map RankedEntry.rank
          = List.range' 1 (leaderboardRows year rs).length
      ∧ (rankedLeaderboard year rs).map RankedEntry.entry
          = leaderboardRows year rs := by
  intro year rs
  refine ⟨rfl, ?_, ?_, ?_, ?_, ?_, ?_⟩
  · intro e he
    have h2 := (List.mem_filter.mp he).2
    simp only [Bool.and_eq_true, beq_iff_eq] at h2
    exact ⟨h2.1, by simpa using h2.2⟩
  · simp [topContributors, List.length_take]
  · simp [leaderboardRows, List.length_take]
  · exact ((pairwise_sortByLe leadDescLe leadDescLe_total leadDescLe_trans
      _).sublist (List.take_sublist 20 _)).imp (fun h => Nat.ble_eq.mp h)
  · unfold rankedLeaderboard
    rw [List.map_map]
    have hcomp : (RankedEntry.rank ∘ fun p : Nat × LeadEntry =>
        (⟨p.1 + 1, p.2⟩ : RankedEntry)) = (fun n => n + 1) ∘ Prod.fst := rfl
    rw [hcomp, ← List.map_map, List.enum_map_fst, List.range'_eq_map_range]
    exact List.map_congr_left (fun a _ => by omega)
  · unfold rankedLeaderboard
    rw [List.map_map]
    have hcomp : (RankedEntry.entry ∘ fun p : Nat × LeadEntry =>
        (⟨p.1 + 1, p.2⟩ : RankedEntry)) = Prod.snd := rfl
    rw [hcomp, List.enum_map_snd]

/-- Witness for C7 on a concrete record set: the approved record counts
as a contribution. -/
theorem contributor_views_witness :
    exContrib.rotaractYear = "2025-2026"
    ∧ exContrib.status ∈ contributionStatuses :=
  (contributor_views "2025-2026" c7Recs).2.1 exContrib (by decide)

theorem setField_rotaractYear (e : Expense) (f : ExpenseField) (v : FieldValue)
    (h : f ≠ ExpenseField.rotaractYear) :
    (setField e f v).rotaractYear = e.rotaractYear := by
  cases f <;> cases v <;> first | rfl | exact absurd rfl h

theorem foldl_setField_rotaractYear :
    ∀ (l : List (ExpenseField × FieldValue)) (e : Expense),
      (∀ kv ∈ l, kv.1 ≠ ExpenseField.rotaractYear) →
      (l.foldl (fun acc kv => setField acc kv.1 kv.2) e).rotaractYear
        = e.rotaractYear := by
  intro l
  induction l with
  | nil => intro e _; rfl
  | cons kv kvs ih =>
    intro e h
    simp only [List.foldl_cons]
    rw [ih _ (fun x hx => h x (List.mem_cons_of_mem _ hx)),
        setField_rotaractYear _ _ _ (h kv (List.mem_cons_self _ _))]

theorem allowed_ne_rotaractYear :
    ∀ f : ExpenseField, allowedUpdates.contains f = true →
      f ≠ ExpenseField.rotaractYear := by
  intro f
  cases f <;> decide

/-- **C8**: the update handler's allow-list cannot touch `rotaractYear`,
and closing a year changes at most the `isArchived` flag of the year's
expense documents. -/
theorem fiscal_year_immutable :
    (∀ (e : Expense) (body : List (ExpenseField × FieldValue))
        (file : Option UploadedFile),
      (updateExpense e body file).rotaractYear = e.rotaractYear)
    ∧ (∀ (y : String) (e : Expense),
      closeYearExpense y e
        = { e with isArchived := (closeYearExpense y e).isArchived }) := by
  constructor
  · intro e body file
    have hbody : ∀ kv ∈ body.filter (fun kv => allowedUpdates.contains kv.1),
        kv.1 ≠ ExpenseField.rotaractYear := fun kv hkv =>
      allowed_ne_rotaractYear kv.1 (List.mem_filter.mp hkv).2
    cases file with
    | none => exact foldl_setField_rotaractYear _ e hbody
    | some f => exact foldl_setField_rotaractYear _ e hbody
  · intro y e
    unfold closeYearExpense
    split <;> rfl

theorem addManualExpense_ok (users events : List Nat) (req : ManualExpenseReq)
    (file : Option UploadedFile) (u t : Nat) (y : String) (e : Expense)
    (h : addManualExpense users events req file u t y = .ok e) :
    e.approvedBy = some u ∧ e.approvedAt = some t
    ∧ e.status = req.status.getD .approved := by
  unfold addManualExpense at h
  repeat' split at h
  all_goals first
    | exact Except.noConfusion h
    | (injection h with h'
       exact ⟨by rw [← h'], by rw [← h'], by rw [← h']⟩)

/-- **C9**: no transition handler ever writes the `paid` status
(approve, reject and reimburse write `approved`, `rejected` and
`reimbursed`), normal submission creates records as `pending`, and the
manual creation path writes exactly the requested status — so `paid`
records can only come from the manual path requesting `paid`
directly. -/
theorem paid_unreachable :
    (∀ (e : Expense) (a : ExpenseAction) (e' : Expense),
        applyAction e a = some e' → e'.status ≠ .paid)
    ∧ (∀ (m ev : Nat) (c : Category) (amt : Nat) (d : Date) (pm : PayMode)
        (ds nt : String) (f : Option UploadedFile) (y : String),
        (createExpense m ev c amt d pm ds nt f y).status = .pending)
    ∧ (∀ (users events : List Nat) (req : ManualExpenseReq)
        (file : Option UploadedFile) (u t : Nat) (y : String) (e : Expense),
        addManualExpense users events req file u t y = .ok e →
        e.status = req.status.getD .approved) := by
  refine ⟨?_, ?_, ?_⟩
  · intro e a e' h
    rcases (applyAction_some_iff e a e').mp h with
      ⟨_, _, _, _, he'⟩ | ⟨_, _, _, _, _, _, he'⟩ | ⟨_, _, _, _, _, he'⟩ <;>
      rw [he'] <;> exact fun hc => Status.noConfusion hc
  · intro m ev c amt d pm ds nt f y
    rfl
  · intro users events req file u t y e h
    exact (addManualExpense_ok users events req file u t y e h).2.2

/-- Witness for C9: approving a pending expense yields `approved`, and
the manual path with a requested `pending` status stores `pending`. -/
theorem paid_unreachable_witness :
    (approvedVersion exPending 1 2).status ≠ .paid
    ∧ manualEx.status = manualReq.status.getD .approved :=
  ⟨paid_unreachable.1 exPending (.approve 1 2) (approvedVersion exPending 1 2) rfl,
   paid_unreachable.2.2 [3] [4] manualReq none 7 99 "2025-2026" manualEx rfl⟩

/-- **C10**: every manual expense records the calling user as approver
and the creation instant as approval time — whatever status was
requested — and a request without a status yields `approved`. -/
theorem manual_expense_approver :
    ∀ (users events : List Nat) (req : ManualExpenseReq)
      (file : Option UploadedFile) (u t : Nat) (y : String) (e : Expense),
      addManualExpense users events req file u t y = .ok e →
      e.approvedBy = some u ∧ e.approvedAt = some t
      ∧ e.status = req.status.getD .approved
      ∧ (req.status = none → e.status = .approved) := by
  intro users events req file u t y e h
  rcases addManualExpense_ok users events req file u t y e h with ⟨h1, h2, h3⟩
  exact ⟨h1, h2, h3, fun hn => by rw [h3, hn]; rfl⟩

/-- Witness for C10: a concrete manual expense requested as `pending`
still carries the caller as approver. -/
theorem manual_expense_approver_witness :
    manualEx.approvedBy = some 7 ∧ manualEx.approvedAt = some 99
    ∧ manualEx.status = manualReq.status.getD .approved
    ∧ (manualReq.status = none → manualEx.status = .approved) :=
  manual_expense_approver [3] [4] manualReq none 7 99 "2025-2026" manualEx rfl
